import Mathlib

/-!
Verification of the sipparty FSM / timer engine (`sip/fsm.py`).

Shallow embedding, in Lean 4, of the finite-state-machine engine with
integrated retry timers from `sip/fsm.py` of the sipparty repository, together
with theorems settling the spec's claims about it.

Modelling conventions:
* Python wall-clock times (`time.clock()` floats) are modelled as rationals.
* Python exceptions are modelled by the `PyErr` type; an operation that can
  raise returns `Except (PyErr × σ) σ`, where the error case carries the state
  of the mutated object at the moment the exception propagates out (Python
  mutations made before the raise persist on the object).
* Python dicts are modelled as association lists; insertion adds at the end,
  matching dict insertion-order semantics where it matters.
* A `Timer`'s retry spec (an iterable, or a generator factory producing the
  same sequence at each call) is modelled as the list of wait durations the
  fresh iterator yields; the live iterator `_tmr_currentPauseIter` is the list
  of waits not yet consumed.
* Timer actions and transition actions are opaque callbacks; all the claims
  need of an action is whether an invocation succeeds or raises, so a
  transition's action is modelled as `Option Bool` (`none` = no action,
  `some true` = action that returns normally, `some false` = action that
  raises), and `Timer.check` reports the number of action invocations it made.
-/

namespace SipParty

/-- Python exceptions raised by the fsm module, as the claims distinguish
them.  `keyError` is a raw dict-lookup failure, `typeError` a failure inside
string formatting, `valueError` the module's configuration errors,
`unexpectedInput` the `UnexpectedInput(FSMError)` subclass, `timerNotRunning`
the `TimerNotRunning(TimerError)` subclass, and `actionError` stands for an
arbitrary exception raised by a user-supplied transition action. -/
inductive PyErr where
  | keyError
  | typeError
  | valueError
  | unexpectedInput
  | timerNotRunning
  | actionError
  deriving Repr, DecidableEq

/-! ## Timer (`class Timer`, fsm.py lines 46-148) -/

/-- Structure `Timer`: `spec` is the sequence of waits a fresh iterator from
`_tmr_retryer` yields; `pauseIter` is `_tmr_currentPauseIter` (the waits not
yet consumed, `none` when no live iterator); `startTime` is `_tmr_startTime`
and `alarmTime` is `_tmr_alarmTime`. -/
structure Timer where
  name : String
  spec : List ℚ
  pauseIter : Option (List ℚ)
  startTime : Option ℚ
  alarmTime : Option ℚ
  deriving Repr, DecidableEq

/-- Constructor `Timer.__init__`: a freshly constructed timer has no live iterator, no
start time and no alarm time. -/
def freshTimer (name : String) (spec : List ℚ) : Timer :=
  { name := name, spec := spec, pauseIter := none, startTime := none,
    alarmTime := none }

namespace Timer

/-- Property `Timer.isRunning` (line 78): the timer is running iff `_tmr_startTime`
is set. -/
def isRunning (t : Timer) : Bool :=
  t.startTime.isSome

/-- Property `Timer.nextPopTime` (line 84). -/
def nextPopTime (t : Timer) : Option ℚ :=
  t.alarmTime

/-- Method `Timer.stop` (line 94): clears start time, alarm time and the live
iterator. -/
def stop (t : Timer) : Timer :=
  { t with startTime := none, alarmTime := none, pauseIter := none }

/-- Method `Timer._tmr_setNextPopTime` (line 121).  Does nothing when not running;
takes the next wait from the live iterator, stopping the timer when the
iterator is exhausted; adds the wait to `_tmr_alarmTime` when one is already
set, otherwise to `_tmr_startTime`.  (While running the live iterator is
always installed, so the `none` branch is unreachable in any state the API
can produce; it is modelled as a stop.) -/
def setNextPopTime (t : Timer) : Timer :=
  match t.startTime with
  | none => t
  | some st =>
    match t.pauseIter with
    | none => t.stop
    | some [] => t.stop
    | some (w :: ws) =>
      match t.alarmTime with
      | none => { t with alarmTime := some (st + w), pauseIter := some ws }
      | some a => { t with alarmTime := some (a + w), pauseIter := some ws }

/-- Method `Timer.start` (line 87): records the clock as the start time, installs a
fresh iterator from the retry spec, and computes the next pop time.  Note
that the pre-existing `_tmr_alarmTime` is not cleared first. -/
def start (t : Timer) (now : ℚ) : Timer :=
  setNextPopTime { t with startTime := some now, pauseIter := some t.spec }

/-- Method `Timer.check` (line 100): raises `TimerNotRunning` when there is no alarm
time; otherwise, when the clock has reached the alarm time, pops (invoking
the action once) and advances the pop time.  The returned `Nat` counts the
action invocations made by this call. -/
def check (t : Timer) (now : ℚ) : Except PyErr (Timer × Nat) :=
  match t.alarmTime with
  | none => .error .timerNotRunning
  | some a =>
    if a ≤ now then
      .ok (t.setNextPopTime, 1)
    else
      .ok (t, 0)

end Timer

/-! ## RetryThread (`class RetryThread`, fsm.py lines 151-242)

Only the deadline-set state is modelled: `cancelled` is `_rthr_cancelled` and
`retryTimes` is `_rthr_retryTimes`.  The worker loop, locks and condition
variable manage when entries are consumed, not what `addRetryTime` and
`cancel` do to this state. -/

structure RetryThread where
  cancelled : Bool
  retryTimes : List ℚ
  deriving Repr, DecidableEq

/-- A fresh `RetryThread`: not cancelled, no pending retry times. -/
def freshRetryThread : RetryThread :=
  { cancelled := false, retryTimes := [] }

namespace RetryThread

/-- The insertion scan of `addRetryTime` (lines 220-232): walk the sorted
list; insert before the first element greater than `ctime`; when an element
equal to `ctime` is found first, return `none` (the time is already present
and is not re-added); falling off the end appends. -/
def insertRetryTime (ctime : ℚ) : List ℚ → Option (List ℚ)
  | [] => some [ctime]
  | t :: ts =>
    if ctime < t then some (ctime :: t :: ts)
    else if ctime = t then none
    else (insertRetryTime ctime ts).map (t :: ·)

/-- Method `RetryThread.addRetryTime` (line 216): inserts the time in sorted order;
a time already present in the list is not re-added.  The cancelled flag is
not consulted. -/
def addRetryTime (r : RetryThread) (ctime : ℚ) : RetryThread :=
  match insertRetryTime ctime r.retryTimes with
  | none => r
  | some l => { r with retryTimes := l }

/-- Method `RetryThread.cancel` (line 239): sets the cancelled flag (and notifies
the worker); nothing else changes. -/
def cancel (r : RetryThread) : RetryThread :=
  { r with cancelled := true }

end RetryThread

/-! ## FSM (`class FSM`, fsm.py lines 245-429)

States and inputs are opaque comparable tokens; the embedding uses `String`
(the repository's tests use strings).  The transition table
`_fsm_transitions` is a dict from old state to a dict from input to a result
dict; both levels are association lists here.  A result dict's
`"start timers"`/`"stop timers"` entries hold references to `Timer` objects
registered in `_fsm_timers`; since every reference is installed by looking
the name up in `_fsm_timers`, the embedding stores the timer names and
resolves them through `FSM.timers`.  An `Option` around each list records
whether the dict key is present at all: `addTransition` installs the result
dict before filling the timer lists in, so a failed call can leave an entry
whose `"stop timers"` key is missing.

Only the synchronous mode (`asynchronous_timers=False`) is modelled: the
asynchronous mode differs by wrapping each call in a reentrant lock and
registering started timers' pop times with a `RetryThread`, which does not
change any state this file's claims speak about. -/

/-- One value of a transition dict: `{KeyNewState, KeyAction, KeyStartTimers,
KeyStopTimers}` (fsm.py lines 329-348).  `action` is `none` when no action
was supplied, otherwise `some b` with `b` true iff invoking the action
returns normally. -/
structure TransResult where
  newState : String
  action : Option Bool
  startTimers : Option (List String)
  stopTimers : Option (List String)
  deriving Repr, DecidableEq

/-- The FSM engine's state: `_fsm_transitions`, `_fsm_state` and
`_fsm_timers`. -/
structure FSM where
  name : String
  transitions : List (String × List (String × TransResult))
  state : Option String
  timers : List (String × Timer)
  deriving Repr, DecidableEq

/-- Store a binding in an association list modelling a Python dict: replace
the value when the key is present, else append (dicts keep insertion
order). -/
def dictSet {β : Type} (k : String) (v : β) :
    List (String × β) → List (String × β)
  | [] => [(k, v)]
  | (k', v') :: rest =>
    if k' = k then (k, v) :: rest else (k', v') :: dictSet k v rest

/-- Constructor `FSM.__init__` with an explicit name and synchronous timers: empty
transition table, no current state, no timers. -/
def freshFSM (name : String) : FSM :=
  { name := name, transitions := [], state := none, timers := [] }

namespace FSM

/-- Method `FSM.addTimer` (line 357): registers a named timer. -/
def addTimer (m : FSM) (name : String) (spec : List ℚ) : FSM :=
  { m with timers := dictSet name (freshTimer name spec) m.timers }

/-- Method `FSM.setState` (line 364): force-sets the state when it is a key of the
transition table.  For an unknown state the code's `raise ValueError("... %r
... %r ..." % self._fsm_name, state)` applies `%` to the FSM name alone while
the format string has two placeholders, so the formatting itself raises
`TypeError` before any `ValueError` exists; either way the current state is
unchanged. -/
def setState (m : FSM) (state : String) : Except (PyErr × FSM) FSM :=
  if (m.transitions.lookup state).isSome then
    .ok { m with state := some state }
  else
    .error (.typeError, m)

/-- The timer-linking loop of `addTransition` (lines 345-348): resolve the
given timer names against `_fsm_timers` in order, returning the names
successfully appended before the first unknown one, and whether an unknown
name was hit (raising `ValueError`). -/
def linkTimers (timers : List (String × Timer)) :
    List String → List String × Bool
  | [] => ([], false)
  | n :: ns =>
    if (timers.lookup n).isSome then
      let r := linkTimers timers ns
      (n :: r.1, r.2)
    else
      ([], true)

/-- Method `FSM.addTransition` (line 306).  Creates the old state's inner dict when
absent; raises `ValueError` on a duplicate `(old_state, input)`; installs the
result dict in the table and only then links up the timer lists, so an
unknown timer name raises `ValueError` with the (incomplete) entry already in
the table; finally, the first successful call sets the initial state. -/
def addTransition (m : FSM) (old_state input new_state : String)
    (action : Option Bool) (start_timers stop_timers : Option (List String)) :
    Except (PyErr × FSM) FSM :=
  let m :=
    if (m.transitions.lookup old_state).isSome then m
    else { m with transitions := dictSet old_state [] m.transitions }
  let state_trans := (m.transitions.lookup old_state).getD []
  if (state_trans.lookup input).isSome then
    .error (.valueError, m)
  else
    -- the result dict is inserted now; the timer lists are filled in after
    let store (r : TransResult) : FSM :=
      { m with transitions :=
          dictSet old_state (dictSet input r state_trans) m.transitions }
    let startLink := linkTimers m.timers (start_timers.getD [])
    if startLink.2 then
      .error (.valueError, store
        { newState := new_state, action := action,
          startTimers := some startLink.1, stopTimers := none })
    else
      let stopLink := linkTimers m.timers (stop_timers.getD [])
      if stopLink.2 then
        .error (.valueError, store
          { newState := new_state, action := action,
            startTimers := some startLink.1, stopTimers := some stopLink.1 })
      else
        let m' := store
          { newState := new_state, action := action,
            startTimers := some startLink.1, stopTimers := some stopLink.1 }
        if m'.state.isNone then m'.setState old_state else .ok m'

/-- Stop the registered timer called `n` (the `st.stop()` loop of `hit`;
transitions only hold timers present in `_fsm_timers`, so the `none` branch
is unreachable). -/
def stopTimerNamed (m : FSM) (n : String) : FSM :=
  match m.timers.lookup n with
  | none => m
  | some t => { m with timers := dictSet n t.stop m.timers }

/-- Start the registered timer called `n` at clock `now` (the `st.start()`
loop of `hit`). -/
def startTimerNamed (m : FSM) (n : String) (now : ℚ) : FSM :=
  match m.timers.lookup n with
  | none => m
  | some t => { m with timers := dictSet n (t.start now) m.timers }

/-- Method `FSM.hit` (line 373).  `self._fsm_transitions[self._fsm_state]` raises
`KeyError` when the current state is not a key of the table (including a
`None` state); an input with no entry raises `UnexpectedInput`; then the
action runs first (an exception from it propagates with nothing changed),
then the stop timers are stopped, then the state is set, then the start
timers are started at the current clock. -/
def hit (m : FSM) (input : String) (now : ℚ) : Except (PyErr × FSM) FSM :=
  let stateTrans? :=
    match m.state with
    | none => none
    | some s => m.transitions.lookup s
  match stateTrans? with
  | none => .error (.keyError, m)
  | some stateTrans =>
    match stateTrans.lookup input with
    | none => .error (.unexpectedInput, m)
    | some res =>
      if res.action = some false then
        .error (.actionError, m)
      else
        match res.stopTimers with
        | none => .error (.keyError, m)
        | some stops =>
          let m1 := stops.foldl (fun acc n => acc.stopTimerNamed n) m
          let m2 := { m1 with state := some res.newState }
          match res.startTimers with
          | none => .error (.keyError, m2)
          | some starts =>
            .ok (starts.foldl (fun acc n => acc.startTimerNamed n now) m2)

/-- Method `FSM.checkTimers` (line 407): check every running timer.  (The model
keeps the dict order; a popped timer's state is stored back.) -/
def checkTimers (m : FSM) (now : ℚ) : FSM :=
  { m with timers := m.timers.map (fun p =>
      if p.2.isRunning then
        match p.2.check now with
        | .ok (t', _) => (p.1, t')
        | .error _ => p
      else p) }

end FSM

/-! ## Non-INVITE client transaction retransmission schedule

The transaction layer itself (`sipparty/sip/transaction/`, `sipparty/fsm/`)
is not among the provided sources; only its test,
`sipparty/test/testsiptransaction.py`, is.  The retransmission behaviour is
therefore modelled from the spec, in milliseconds.  The constants carry the
names the test imports from `sipparty.sip.prot`. -/

/-- Modelled from the spec: the base non-INVITE retry interval, 500 ms (the
module `sipparty.sip.prot` holding `DefaultRetryTimeMS` is missing from the
sources; the test asserts this value). -/
def DefaultRetryTimeMS : ℕ := 500

/-- Modelled from the spec: the retry-interval cap, 4000 ms (the module
`sipparty.sip.prot` holding `DefaultMaximumRetryTimeMS` is missing from the
sources; the test asserts this value). -/
def DefaultMaximumRetryTimeMS : ℕ := 4000

/-- Modelled from the spec: the overall give-up deadline, 32000 ms (the
module `sipparty.sip.prot` holding `DefaultGiveupTimeMS` is missing from the
sources). -/
def DefaultGiveupTimeMS : ℕ := 32000

/-- Modelled from the spec: the wait between the (n+1)-th and (n+2)-th sends
of a non-INVITE client transaction — "starts at a base interval (e.g.
500 ms), doubles each pop up to a cap (e.g. 4000 ms), continues at the
capped interval" (the transaction code is missing from the sources). -/
def retryInterval (n : ℕ) : ℕ :=
  min (DefaultRetryTimeMS * 2 ^ n) DefaultMaximumRetryTimeMS

/-- Modelled from the spec: the cumulative time, in ms after the request is
submitted, of the (n+1)-th send of a non-INVITE client transaction that
receives no response: the request goes out at t=0 and each retransmission
follows the previous send by `retryInterval`. -/
def sendTime : ℕ → ℕ
  | 0 => 0
  | n + 1 => sendTime n + retryInterval n

/-- Modelled from the spec: the times at which sends actually happen — the
cumulative send times that fall before the give-up deadline, at which the
transaction terminates and stops retransmitting.  (`sendTime` passes
`DefaultGiveupTimeMS` from index 11 on, and 16 ≥ 11, so the range bound
drops nothing; `sendTime_ge_giveup` below proves it.) -/
def sendTimes : List ℕ :=
  ((List.range 16).map sendTime).filter (· < DefaultGiveupTimeMS)

/-- Modelled from the spec: the states of a non-INVITE client transaction
that the timeout scenario visits (`trying` until the give-up deadline, then
`terminated`). -/
inductive TransactionState where
  | trying
  | terminated
  deriving Repr, DecidableEq

/-- Modelled from the spec: the state, at time `t` ms, of a non-INVITE
client transaction that receives no response: `trying` until the give-up
deadline, `terminated` from the deadline on. -/
def nonInviteClientStateAt (t : ℕ) : TransactionState :=
  if t < DefaultGiveupTimeMS then .trying else .terminated

/-- Modelled from the spec: whether, by time `t` ms, the transaction has
signalled a timeout to the transaction-user (it does so on reaching
`terminated` at the give-up deadline). -/
def timeoutSignaledAt (t : ℕ) : Bool :=
  decide (DefaultGiveupTimeMS ≤ t)

/-! ## Concrete machines used by counterexamples and witnesses -/

/-- The Python object as it stands after a call that may raise: the `ok`
machine, or the machine carried out with the exception. -/
def after (r : Except (PyErr × FSM) FSM) : FSM :=
  match r with
  | .ok m => m
  | .error (_, m) => m

/-- A machine with the single transition `a --go--> b` (so `b` is only ever
a new state, with no outgoing transitions). -/
def fsmAB : FSM :=
  after ((freshFSM "G").addTransition "a" "go" "b" none none none)

/-- The machine `fsmAB` after `hit("go")`: its current state `b` has no
entry in the transition table. -/
def fsmAtB : FSM :=
  after (fsmAB.hit "go" 0)

/-- A machine whose single transition carries an action that raises, and a
registered timer in both timer lists of the transition. -/
def fsmBadAction : FSM :=
  after ((((freshFSM "A").addTimer "t" [5, 5]).addTransition
    "a" "go" "b" (some false) (some ["t"]) (some ["t"])))

/-! ## Verification infrastructure for the timer invariants -/

/-- Timer states reachable from `t` through the public API — `start`, `stop`
and successful `check` calls — under the discipline that `start` is only
invoked on a timer that is not running. -/
inductive Timer.ReachWithStoppedStarts (t : Timer) : Timer → Prop where
  | refl : ReachWithStoppedStarts t t
  | start (u : Timer) (now : ℚ) : ReachWithStoppedStarts t u →
      u.isRunning = false → ReachWithStoppedStarts t (u.start now)
  | stop (u : Timer) : ReachWithStoppedStarts t u →
      ReachWithStoppedStarts t u.stop
  | check (u u' : Timer) (now : ℚ) (k : ℕ) : ReachWithStoppedStarts t u →
      u.check now = .ok (u', k) → ReachWithStoppedStarts t u'

/-- The internal consistency of a timer built over retry spec `spec`: the
spec is intact, every wait still pending on the live iterator comes from the
spec, a stopped timer has neither alarm time nor live iterator, and a
running timer has both, with its alarm time no earlier than its start
time. -/
def Timer.GoodState (spec : List ℚ) (u : Timer) : Prop :=
  u.spec = spec ∧
  (∀ l, u.pauseIter = some l → ∀ w ∈ l, w ∈ spec) ∧
  (u.startTime = none → u.alarmTime = none ∧ u.pauseIter = none) ∧
  (∀ st, u.startTime = some st →
    ∃ a l, u.alarmTime = some a ∧ u.pauseIter = some l ∧ st ≤ a)

/-! ## Theorems -/

/-- C1: if the registered transition for (current state, input) has an
action that raises, `hit` propagates the error and the machine is returned
exactly as it was: the state is unchanged and no timer — in particular none
named by the transition's stop or start lists — has been stopped or
started. -/
theorem hit_action_failure_is_atomic (m : FSM) (s input : String) (now : ℚ)
    (stateTrans : List (String × TransResult)) (res : TransResult)
    (hs : m.state = some s)
    (ht : m.transitions.lookup s = some stateTrans)
    (hi : stateTrans.lookup input = some res)
    (ha : res.action = some false) :
    m.hit input now = .error (.actionError, m) := by
  simp [FSM.hit, hs, ht, hi, ha]

/-- Witness for C1: the concrete machine `fsmBadAction`, whose transition
from `a` on `go` names timer `t` in both lists and has a raising action. -/
theorem hit_action_failure_is_atomic_witness :
    fsmBadAction.hit "go" 0 = .error (.actionError, fsmBadAction) :=
  hit_action_failure_is_atomic fsmBadAction "a" "go" 0
    [("go", ⟨"b", some false, some ["t"], some ["t"]⟩)]
    ⟨"b", some false, some ["t"], some ["t"]⟩ rfl rfl rfl rfl

/-- C2 counterexample: in `fsmAtB` the current state `b` was only ever used
as a new state and has no outgoing transitions; `hit` then raises a raw
dict-lookup `KeyError` (from `self._fsm_transitions[self._fsm_state]`), not
`UnexpectedInput` as the claim states (the state is still unchanged). -/
theorem hit_unregistered_state_keyError_cex :
    fsmAtB.state = some "b" ∧
    fsmAtB.transitions.lookup "b" = none ∧
    fsmAtB.hit "x" 0 = .error (.keyError, fsmAtB) ∧
    PyErr.keyError ≠ PyErr.unexpectedInput :=
  ⟨rfl, rfl, rfl, by decide⟩

/-- C2 as amended: when no transition is registered for (current state,
input), `hit` fails and leaves the machine untouched; the failure is
`UnexpectedInput` when the current state has an entry in the transition
table, but a raw `KeyError` when the current state has no outgoing
transitions at all (or no state is set). -/
theorem hit_no_transition_failure_modes (m : FSM) (input : String) (now : ℚ) :
    (m.state = none → m.hit input now = .error (.keyError, m)) ∧
    (∀ s, m.state = some s → m.transitions.lookup s = none →
      m.hit input now = .error (.keyError, m)) ∧
    (∀ s stateTrans, m.state = some s →
      m.transitions.lookup s = some stateTrans →
      stateTrans.lookup input = none →
      m.hit input now = .error (.unexpectedInput, m)) := by
  refine ⟨fun h => ?_, fun s hs hn => ?_, fun s stateTrans hs ht hn => ?_⟩ <;>
    simp [FSM.hit, *]

/-- Witness for C2: both failure modes, on the concrete machines `fsmAtB`
(current state with no outgoing transitions) and `fsmAB` (current state with
outgoing transitions but none for the input). -/
theorem hit_no_transition_failure_modes_witness :
    fsmAtB.hit "x" 0 = .error (.keyError, fsmAtB) ∧
    fsmAB.hit "x" 0 = .error (.unexpectedInput, fsmAB) :=
  ⟨(hit_no_transition_failure_modes fsmAtB "x" 0).2.1 "b" rfl rfl,
   (hit_no_transition_failure_modes fsmAB "x" 0).2.2 "a"
     [("go", ⟨"b", none, some [], some []⟩)] rfl rfl rfl⟩

/-- C8: calling `setState` with a state never used as an old state does
fail and leaves the state unchanged, but with `TypeError`, not the intended
`ValueError`: the `raise ValueError(... % self._fsm_name, state)` applies
`%` to the FSM name alone while the format string has two placeholders, so
the formatting raises before the `ValueError` is constructed. -/
theorem setState_unknown_state_raises_typeError :
    fsmAB.transitions.lookup "c" = none ∧
    fsmAB.setState "c" = .error (.typeError, fsmAB) ∧
    (after (fsmAB.setState "c")).state = fsmAB.state ∧
    PyErr.typeError ≠ PyErr.valueError :=
  ⟨rfl, rfl, rfl, by decide⟩

/-- When the insertion scan reports the time as already present, it really
is in the list. -/
theorem mem_of_insertRetryTime_eq_none (t : ℚ) :
    ∀ l : List ℚ, RetryThread.insertRetryTime t l = none → t ∈ l := by
  intro l
  induction l with
  | nil => simp [RetryThread.insertRetryTime]
  | cons a l ih =>
    intro h
    by_cases h1 : t < a
    · simp [RetryThread.insertRetryTime, h1] at h
    · by_cases h2 : t = a
      · exact h2 ▸ List.mem_cons_self t l
      · simp only [RetryThread.insertRetryTime, if_neg h1, if_neg h2,
          Option.map_eq_none'] at h
        exact List.mem_cons_of_mem a (ih h)

/-- Membership in the list produced by a successful insertion scan: exactly
the old elements plus the inserted time. -/
theorem mem_insertRetryTime_iff (t x : ℚ) :
    ∀ (l l' : List ℚ), RetryThread.insertRetryTime t l = some l' →
      (x ∈ l' ↔ x = t ∨ x ∈ l) := by
  intro l
  induction l with
  | nil =>
    intro l' h
    simp [RetryThread.insertRetryTime] at h
    subst h
    simp [eq_comm]
  | cons a l ih =>
    intro l' h
    by_cases h1 : t < a
    · simp only [RetryThread.insertRetryTime, if_pos h1, Option.some.injEq]
        at h
      subst h
      simp [eq_comm]
    · by_cases h2 : t = a
      · simp [RetryThread.insertRetryTime, if_neg h1, h2] at h
      · simp only [RetryThread.insertRetryTime, if_neg h1, if_neg h2] at h
        cases hrec : RetryThread.insertRetryTime t l with
        | none => rw [hrec] at h; simp at h
        | some l'' =>
          rw [hrec] at h
          simp only [Option.map_some', Option.some.injEq] at h
          subst h
          simp only [List.mem_cons, ih l'' hrec]
          tauto

/-- On a (≤)-sorted list, the insertion scan of a time already present
reports it as present (so the caller does not re-add it). -/
theorem insertRetryTime_eq_none_of_mem (t : ℚ) :
    ∀ l : List ℚ, l.Sorted (· ≤ ·) → t ∈ l →
      RetryThread.insertRetryTime t l = none := by
  intro l
  induction l with
  | nil => simp
  | cons a l ih =>
    intro hs hm
    rcases List.sorted_cons.mp hs with ⟨ha, hl⟩
    by_cases h2 : t = a
    · have h1 : ¬t < a := by rw [h2]; exact lt_irrefl a
      simp [RetryThread.insertRetryTime, h2]
    · have hmem : t ∈ l := by
        rcases List.mem_cons.mp hm with h | h
        · exact absurd h h2
        · exact h
      have h1 : ¬t < a := not_lt.mpr (ha t hmem)
      simp [RetryThread.insertRetryTime, if_neg h1, if_neg h2, ih hl hmem]

/-- A successful insertion scan on a (≤)-sorted list yields a (≤)-sorted
list. -/
theorem insertRetryTime_sorted (t : ℚ) :
    ∀ (l l' : List ℚ), l.Sorted (· ≤ ·) →
      RetryThread.insertRetryTime t l = some l' → l'.Sorted (· ≤ ·) := by
  intro l
  induction l with
  | nil =>
    intro l' _ h
    simp [RetryThread.insertRetryTime] at h
    subst h
    simp
  | cons a l ih =>
    intro l' hs h
    rcases List.sorted_cons.mp hs with ⟨ha, hl⟩
    by_cases h1 : t < a
    · simp only [RetryThread.insertRetryTime, if_pos h1, Option.some.injEq]
        at h
      subst h
      refine List.sorted_cons.mpr ⟨?_, hs⟩
      intro b hb
      rcases List.mem_cons.mp hb with h | h
      · exact h ▸ le_of_lt h1
      · exact le_trans (le_of_lt h1) (ha b h)
    · by_cases h2 : t = a
      · simp [RetryThread.insertRetryTime, if_neg h1, h2] at h
      · simp only [RetryThread.insertRetryTime, if_neg h1, if_neg h2] at h
        cases hrec : RetryThread.insertRetryTime t l with
        | none => rw [hrec] at h; simp at h
        | some l'' =>
          rw [hrec] at h
          simp only [Option.map_some', Option.some.injEq] at h
          subst h
          refine List.sorted_cons.mpr ⟨?_, ih l'' hl hrec⟩
          intro b hb
          rcases (mem_insertRetryTime_iff t b l l'' hrec).mp hb with h | h
          · have : a < t := lt_of_le_of_ne (not_lt.mp h1) (Ne.symm h2)
            exact h ▸ le_of_lt this
          · exact ha b h

/-- C6 counterexample: two exact-duplicate deadlines added on behalf of
different logical timers are collapsed: `addRetryTime` takes only the raw
time value and drops the second add, so the pending set holds one entry,
not the two the claim requires. -/
theorem addRetryTime_duplicate_values_cex :
    ((freshRetryThread.addRetryTime 5).addRetryTime 5).retryTimes = [5] ∧
    ((freshRetryThread.addRetryTime 5).addRetryTime 5).retryTimes.length
      ≠ 2 :=
  ⟨rfl, by decide⟩

/-- C6 as amended: `addRetryTime` inserts the deadline in sorted order, and
duplicate suppression is keyed by the raw deadline value: re-adding a value
already pending is a no-op regardless of which logical timer it is for, so
exact-duplicate deadlines from different callers are collapsed to one
entry. -/
theorem addRetryTime_sorted_value_keyed_dedup (r : RetryThread) (t : ℚ)
    (hs : r.retryTimes.Sorted (· ≤ ·)) :
    t ∈ (r.addRetryTime t).retryTimes ∧
    (r.addRetryTime t).retryTimes.Sorted (· ≤ ·) ∧
    (t ∈ r.retryTimes → r.addRetryTime t = r) ∧
    (r.addRetryTime t).addRetryTime t = r.addRetryTime t := by
  have hmem : t ∈ (r.addRetryTime t).retryTimes := by
    unfold RetryThread.addRetryTime
    cases hrec : RetryThread.insertRetryTime t r.retryTimes with
    | none => exact mem_of_insertRetryTime_eq_none t _ hrec
    | some l' => exact (mem_insertRetryTime_iff t t _ l' hrec).mpr (Or.inl rfl)
  have hsorted : (r.addRetryTime t).retryTimes.Sorted (· ≤ ·) := by
    unfold RetryThread.addRetryTime
    cases hrec : RetryThread.insertRetryTime t r.retryTimes with
    | none => exact hs
    | some l' => exact insertRetryTime_sorted t _ l' hs hrec
  have hnoop : ∀ r' : RetryThread, r'.retryTimes.Sorted (· ≤ ·) →
      t ∈ r'.retryTimes → r'.addRetryTime t = r' := by
    intro r' hs' hin
    unfold RetryThread.addRetryTime
    rw [insertRetryTime_eq_none_of_mem t _ hs' hin]
  exact ⟨hmem, hsorted, hnoop r hs, hnoop (r.addRetryTime t) hsorted hmem⟩

/-- Witness for C6, on a concrete scheduler holding the sorted deadlines
3 and 5: adding 4 keeps the set sorted with 4 present, and re-adding 5 is a
no-op. -/
theorem addRetryTime_sorted_value_keyed_dedup_witness :
    (4:ℚ) ∈ (((freshRetryThread.addRetryTime 3).addRetryTime
        5).addRetryTime 4).retryTimes ∧
    ((((freshRetryThread.addRetryTime 3).addRetryTime
        5).addRetryTime 5) = ((freshRetryThread.addRetryTime 3).addRetryTime
        5)) :=
  ⟨(addRetryTime_sorted_value_keyed_dedup
      ((freshRetryThread.addRetryTime 3).addRetryTime 5) 4
      (by decide)).1,
   (addRetryTime_sorted_value_keyed_dedup
      ((freshRetryThread.addRetryTime 3).addRetryTime 5) 5
      (by decide)).2.2.1 (by decide)⟩

/-- C7 counterexample: after `cancel()` the very next `addRetryTime` call
still inserts its deadline into the pending set — nothing rejects it. -/
theorem addRetryTime_after_cancel_cex :
    ((freshRetryThread.cancel).addRetryTime 5).retryTimes = [5] ∧
    (5:ℚ) ∈ ((freshRetryThread.cancel).addRetryTime 5).retryTimes :=
  ⟨rfl, by decide⟩

/-- C7 as amended: `cancel` only sets the cancelled flag that makes the
worker loop exit; it does not make later `addRetryTime` calls rejected —
they insert exactly as they would have before the cancel. -/
theorem cancel_does_not_reject_addRetryTime (r : RetryThread) (t : ℚ) :
    ((r.cancel).addRetryTime t).retryTimes = (r.addRetryTime t).retryTimes ∧
    ((r.cancel).addRetryTime t).cancelled = true ∧
    t ∈ ((r.cancel).addRetryTime t).retryTimes := by
  have h1 : ((r.cancel).addRetryTime t).retryTimes
      = (r.addRetryTime t).retryTimes := by
    unfold RetryThread.addRetryTime RetryThread.cancel
    cases RetryThread.insertRetryTime t r.retryTimes <;> rfl
  have h2 : ((r.cancel).addRetryTime t).cancelled = true := by
    unfold RetryThread.addRetryTime RetryThread.cancel
    cases RetryThread.insertRetryTime t r.retryTimes <;> rfl
  refine ⟨h1, h2, ?_⟩
  rw [h1]
  unfold RetryThread.addRetryTime
  cases hrec : RetryThread.insertRetryTime t r.retryTimes with
  | none => exact mem_of_insertRetryTime_eq_none t _ hrec
  | some l' => exact (mem_insertRetryTime_iff t t _ l' hrec).mpr (Or.inl rfl)

/-- C4 counterexample: a timer over the spec `[5]` started at clock 0 (next
pop time 5) and started again at clock 3 while still running.  The new
iterator is fresh, but the next pop time becomes 5 + 5 = 10, not the
3 + 5 = 8 the claim requires: `start` never clears the pending
`_tmr_alarmTime`, and `_tmr_setNextPopTime` adds the first wait to it
rather than to the new start time. -/
theorem timer_start_while_running_cex :
    (((freshTimer "t" [5]).start 0).start 3).startTime = some 3 ∧
    (((freshTimer "t" [5]).start 0).start 3).pauseIter = some [] ∧
    (((freshTimer "t" [5]).start 0).start 3).alarmTime = some 10 ∧
    some (10:ℚ) ≠ some ((3:ℚ) + 5) :=
  ⟨rfl, rfl, by norm_num [freshTimer, Timer.start, Timer.setNextPopTime],
   by norm_num⟩

/-- C4 as amended: every `start()` call records the clock as the start time
and installs a fresh iterator from the retry spec; the next pop time then
equals the first wait added to the previous next pop time when the timer
was already running with a pending pop, and to the new start time when it
was not (in particular after a stop, or after the previous run exhausted
its sequence). -/
theorem timer_start_fresh_iterator_pop_time (t : Timer) (now w : ℚ)
    (ws : List ℚ) (hspec : t.spec = w :: ws) :
    (t.start now).pauseIter = some ws ∧
    (t.start now).startTime = some now ∧
    (t.start now).alarmTime = some (t.alarmTime.getD now + w) := by
  cases halarm : t.alarmTime <;>
    simp [Timer.start, Timer.setNextPopTime, hspec, halarm]

/-- Witness for C4: a stopped timer over `[5, 5]` started at clock 2 gets
next pop time 2 + 5; started again at clock 3 while running, it gets next
pop time 7 + 5. -/
theorem timer_start_fresh_iterator_pop_time_witness :
    ((freshTimer "w" [5, 5]).start 2).alarmTime = some 7 ∧
    (((freshTimer "w" [5, 5]).start 2).start 3).alarmTime = some 12 := by
  have h1 := timer_start_fresh_iterator_pop_time (freshTimer "w" [5, 5])
    2 5 [5] rfl
  have h2 := timer_start_fresh_iterator_pop_time
    ((freshTimer "w" [5, 5]).start 2) 3 5 [5] rfl
  have e1 : ((freshTimer "w" [5, 5]).start 2).alarmTime = some 7 := by
    rw [h1.2.2]
    norm_num [freshTimer]
  have e2 : (((freshTimer "w" [5, 5]).start 2).start 3).alarmTime
      = some 12 := by
    rw [h2.2.2, e1]
    norm_num
  exact ⟨e1, e2⟩

/-- C10: a single `check()` call invokes the timer's action at most once,
even when the clock has advanced past several scheduled pop times; a pop
advances the next pop time by exactly the one next wait of the sequence
(further elapsed intervals are consumed by later `check()` calls). -/
theorem timer_check_pops_at_most_once (t : Timer) (now : ℚ) :
    (∀ u k, t.check now = .ok (u, k) → k ≤ 1) ∧
    (∀ a st w ws, t.alarmTime = some a → a ≤ now → t.startTime = some st →
      t.pauseIter = some (w :: ws) →
      t.check now =
        .ok ({ t with alarmTime := some (a + w), pauseIter := some ws },
          1)) := by
  constructor
  · intro u k h
    unfold Timer.check at h
    split at h
    · exact Except.noConfusion h
    · split at h <;>
        (injection h with h1; injection h1 with h2 h3; omega)
  · intro a st w ws ha hle hst hiter
    simp [Timer.check, Timer.setNextPopTime, ha, hle, hst, hiter]

/-- Witness for C10: a timer over `[5, 5]` started at clock 0 (pop times 5
then 10) checked once at clock 12, past both pop times: exactly one pop
happens and the next pop time advances by the single wait 5, from 5 to
10. -/
theorem timer_check_pops_at_most_once_witness :
    ((freshTimer "c" [5, 5]).start 0).check 12 =
      .ok (⟨"c", [5, 5], some [], some 0, some 10⟩, 1) ∧ 1 ≤ 1 := by
  have ha : ((freshTimer "c" [5, 5]).start 0).alarmTime = some 5 := by
    norm_num [freshTimer, Timer.start, Timer.setNextPopTime]
  have hst : ((freshTimer "c" [5, 5]).start 0).startTime = some 0 := by
    simp [freshTimer, Timer.start, Timer.setNextPopTime]
  have hit : ((freshTimer "c" [5, 5]).start 0).pauseIter = some [5] := by
    simp [freshTimer, Timer.start, Timer.setNextPopTime]
  have h := (timer_check_pops_at_most_once
      ((freshTimer "c" [5, 5]).start 0) 12).2 5 0 5 [] ha (by norm_num)
      hst hit
  refine ⟨?_, le_refl 1⟩
  rw [h]
  norm_num [freshTimer, Timer.start, Timer.setNextPopTime]

/-- Looking up the key just stored by `dictSet` yields the stored value. -/
theorem lookup_dictSet_self {β : Type} (k : String) (v : β) :
    ∀ l : List (String × β), (dictSet k v l).lookup k = some v := by
  intro l
  induction l with
  | nil => simp [dictSet, List.lookup]
  | cons p l ih =>
    obtain ⟨k', v'⟩ := p
    by_cases h : k' = k
    · simp [dictSet, h, List.lookup]
    · have hb : (k == k') = false := beq_eq_false_iff_ne.mpr (Ne.symm h)
      simp [dictSet, h, List.lookup, hb, ih]

/-- C9: an `addTransition` call whose `start_timers` or `stop_timers` names
an unregistered timer raises `ValueError`, but not atomically: the entry for
(old state, input) was already inserted into the transition table and stays
there, so a subsequent corrected `addTransition` for the same pair fails as
a duplicate. -/
theorem addTransition_unknown_timer_not_atomic (m : FSM)
    (old input new : String) (action : Option Bool)
    (st sp : Option (List String))
    (hfresh : ((m.transitions.lookup old).getD []).lookup input = none)
    (hbad : (FSM.linkTimers m.timers (st.getD [])).2 = true ∨
            (FSM.linkTimers m.timers (sp.getD [])).2 = true) :
    m.addTransition old input new action st sp =
      .error (.valueError, after (m.addTransition old input new action st sp))
      ∧
    (((after (m.addTransition old input new action st sp)).transitions.lookup
        old).getD []).lookup input ≠ none ∧
    ∀ new2 a2 st2 sp2,
      (after (m.addTransition old input new action st sp)).addTransition
          old input new2 a2 st2 sp2 =
        .error (.valueError,
          after (m.addTransition old input new action st sp)) := by
  have hmain : ∃ r : TransResult,
      m.addTransition old input new action st sp =
        .error (.valueError,
          { (if (m.transitions.lookup old).isSome then m
             else { m with transitions := dictSet old [] m.transitions }) with
            transitions :=
              dictSet old
                (dictSet input r
                  (((if (m.transitions.lookup old).isSome then m
                     else { m with
                       transitions := dictSet old [] m.transitions
                     }).transitions.lookup old).getD []))
                (if (m.transitions.lookup old).isSome then m
                 else { m with
                   transitions := dictSet old [] m.transitions
                 }).transitions }) := by
    have htimers :
        (if (m.transitions.lookup old).isSome then m
         else { m with transitions := dictSet old [] m.transitions }).timers
          = m.timers := by
      split <;> rfl
    have hST :
        (((if (m.transitions.lookup old).isSome then m
           else { m with
             transitions := dictSet old [] m.transitions
           }).transitions.lookup old).getD []).lookup input = none := by
      split
      · exact hfresh
      · simp [lookup_dictSet_self]
    unfold FSM.addTransition
    simp only [htimers, hST, Option.isSome_none, Bool.false_eq_true,
      if_false]
    by_cases hstart : (FSM.linkTimers m.timers (st.getD [])).2 = true
    · refine ⟨⟨new, action,
        some (FSM.linkTimers m.timers (st.getD [])).1, none⟩, ?_⟩
      simp [hstart]
    · have hstop : (FSM.linkTimers m.timers (sp.getD [])).2 = true := by
        rcases hbad with h | h
        · exact absurd h hstart
        · exact h
      refine ⟨⟨new, action,
        some (FSM.linkTimers m.timers (st.getD [])).1,
        some (FSM.linkTimers m.timers (sp.getD [])).1⟩, ?_⟩
      simp [hstart, hstop]
  obtain ⟨r, heq⟩ := hmain
  rw [heq]
  refine ⟨rfl, ?_, ?_⟩
  · simp [after, lookup_dictSet_self]
  · intro new2 a2 st2 sp2
    show FSM.addTransition _ old input new2 a2 st2 sp2 = _
    unfold FSM.addTransition
    simp [after, lookup_dictSet_self]

/-- Witness for C9: on a fresh machine with no timers, adding a transition
that starts the unregistered timer `t` fails, and the corrected re-add for
the same (state, input) pair then fails as a duplicate. -/
theorem addTransition_unknown_timer_not_atomic_witness :
    ((freshFSM "H").addTransition "a" "go" "b" none (some ["t"]) none =
      .error (.valueError,
        after ((freshFSM "H").addTransition "a" "go" "b" none
          (some ["t"]) none))) ∧
    ((after ((freshFSM "H").addTransition "a" "go" "b" none
        (some ["t"]) none)).addTransition "a" "go" "b" none none none =
      .error (.valueError,
        after ((freshFSM "H").addTransition "a" "go" "b" none
          (some ["t"]) none))) :=
  ⟨(addTransition_unknown_timer_not_atomic (freshFSM "H") "a" "go" "b"
      none (some ["t"]) none rfl (Or.inl rfl)).1,
   (addTransition_unknown_timer_not_atomic (freshFSM "H") "a" "go" "b"
      none (some ["t"]) none rfl (Or.inl rfl)).2.2 "b" none none none⟩

/-- A fresh timer is in a good state for its spec. -/
theorem goodState_fresh (name : String) (spec : List ℚ) :
    Timer.GoodState spec (freshTimer name spec) :=
  ⟨rfl, by simp [freshTimer], by simp [freshTimer], by simp [freshTimer]⟩

/-- Stopping preserves the good state. -/
theorem goodState_stop (spec : List ℚ) (u : Timer) (hsp : u.spec = spec) :
    Timer.GoodState spec u.stop :=
  ⟨by simp [Timer.stop, hsp], by simp [Timer.stop], by simp [Timer.stop],
   by simp [Timer.stop]⟩

/-- Starting a stopped timer preserves the good state, for a spec of
non-negative waits. -/
theorem goodState_start (spec : List ℚ) (u : Timer) (now : ℚ)
    (hw : ∀ w ∈ spec, 0 ≤ w) (h : Timer.GoodState spec u)
    (hstop : u.isRunning = false) :
    Timer.GoodState spec (u.start now) := by
  obtain ⟨n, sp, pi, stt, al⟩ := u
  obtain ⟨h1, h2, h3, h4⟩ := h
  cases stt with
  | some stv => simp [Timer.isRunning] at hstop
  | none =>
    obtain ⟨hal, hpi⟩ := h3 rfl
    simp only at hal hpi h1
    subst hal
    subst hpi
    subst h1
    cases sp with
    | nil => exact ⟨rfl, by simp [Timer.start, Timer.setNextPopTime,
        Timer.stop], by simp [Timer.start, Timer.setNextPopTime,
        Timer.stop], by simp [Timer.start, Timer.setNextPopTime,
        Timer.stop]⟩
    | cons w ws =>
      refine ⟨rfl, ?_, ?_, ?_⟩
      · intro l hl x hx
        simp only [Timer.start, Timer.setNextPopTime] at hl
        injection hl with hl
        subst hl
        exact List.mem_cons_of_mem w hx
      · intro hcon
        simp [Timer.start, Timer.setNextPopTime] at hcon
      · intro st' hst'
        simp only [Timer.start, Timer.setNextPopTime] at hst' ⊢
        injection hst' with hst'
        subst hst'
        exact ⟨now + w, ws, rfl, rfl,
          le_add_of_nonneg_right (hw w (List.mem_cons_self w ws))⟩

/-- A successful `check` preserves the good state, for a spec of
non-negative waits. -/
theorem goodState_check (spec : List ℚ) (u u' : Timer) (now : ℚ) (k : ℕ)
    (hw : ∀ w ∈ spec, 0 ≤ w) (h : Timer.GoodState spec u)
    (hchk : u.check now = .ok (u', k)) : Timer.GoodState spec u' := by
  obtain ⟨n, sp, pi, stt, al⟩ := u
  obtain ⟨h1, h2, h3, h4⟩ := h
  simp only at h1
  subst h1
  cases al with
  | none => exact absurd hchk (by simp [Timer.check])
  | some a =>
    cases stt with
    | none =>
      obtain ⟨hal, -⟩ := h3 rfl
      exact Option.noConfusion hal
    | some stv =>
      obtain ⟨a2, l, ha2, hl, hle2⟩ := h4 stv rfl
      simp only at ha2 hl
      injection ha2 with ha2
      subst ha2
      subst hl
      by_cases hle : a ≤ now
      · have hu' : u' = Timer.setNextPopTime ⟨n, sp, some l, some stv,
            some a⟩ ∧ k = 1 := by
          simp [Timer.check, hle] at hchk
          exact ⟨hchk.1.symm, hchk.2.symm⟩
        rw [hu'.1]
        cases l with
        | nil =>
          exact ⟨rfl, by simp [Timer.setNextPopTime, Timer.stop],
            by simp [Timer.setNextPopTime, Timer.stop],
            by simp [Timer.setNextPopTime, Timer.stop]⟩
        | cons w ws =>
          refine ⟨rfl, ?_, ?_, ?_⟩
          · intro l' hl' x hx
            simp only [Timer.setNextPopTime] at hl'
            injection hl' with hl'
            subst hl'
            exact h2 (w :: ws) rfl x (List.mem_cons_of_mem w hx)
          · intro hcon
            simp [Timer.setNextPopTime] at hcon
          · intro st' hst'
            simp only [Timer.setNextPopTime] at hst' ⊢
            injection hst' with hst'
            subst hst'
            refine ⟨a + w, ws, rfl, rfl, ?_⟩
            exact le_trans hle2 (le_add_of_nonneg_right
              (hw w (h2 (w :: ws) rfl w (List.mem_cons_self w ws))))
      · have hu' : u' = Timer.mk n sp (some l) (some stv) (some a)
            ∧ k = 0 := by
          simp [Timer.check, hle] at hchk
          exact ⟨hchk.1.symm, hchk.2.symm⟩
        rw [hu'.1]
        exact ⟨rfl, h2, h3, h4⟩

/-- Every timer state reached from a fresh timer through the disciplined
API is good. -/
theorem goodState_of_reach (name : String) (spec : List ℚ) (u : Timer)
    (hw : ∀ w ∈ spec, 0 ≤ w)
    (hr : Timer.ReachWithStoppedStarts (freshTimer name spec) u) :
    Timer.GoodState spec u := by
  induction hr with
  | refl => exact goodState_fresh name spec
  | start v now hv hstop ih => exact goodState_start spec v now hw ih hstop
  | stop v hv ih => exact goodState_stop spec v ih.1
  | check v v' now k hv hchk ih =>
    exact goodState_check spec v v' now k hw ih hchk

/-- In a good state, a pop that leaves the timer running advances the alarm
time by a single wait drawn from the spec. -/
theorem check_pop_alarm_advance (spec : List ℚ) (u : Timer) (now : ℚ)
    (u' : Timer) (hg : Timer.GoodState spec u)
    (hchk : u.check now = .ok (u', 1)) (hrun : u'.isRunning = true) :
    ∃ a w, u.alarmTime = some a ∧ u'.alarmTime = some (a + w) ∧
      w ∈ spec := by
  obtain ⟨n, sp, pi, stt, al⟩ := u
  obtain ⟨h1, h2, h3, h4⟩ := hg
  simp only at h1
  subst h1
  cases al with
  | none => exact absurd hchk (by simp [Timer.check])
  | some a =>
    cases stt with
    | none =>
      obtain ⟨hal, -⟩ := h3 rfl
      exact Option.noConfusion hal
    | some stv =>
      obtain ⟨a2, l, ha2, hl, hle2⟩ := h4 stv rfl
      simp only at ha2 hl
      injection ha2 with ha2
      subst ha2
      subst hl
      by_cases hle : a ≤ now
      · have hu' : u' = Timer.setNextPopTime ⟨n, sp, some l, some stv,
            some a⟩ := by
          simp [Timer.check, hle] at hchk
          exact hchk.symm
        subst hu'
        cases l with
        | nil => simp [Timer.setNextPopTime, Timer.stop,
            Timer.isRunning] at hrun
        | cons w ws =>
          exact ⟨a, w, rfl, rfl, h2 (w :: ws) rfl w
            (List.mem_cons_self w ws)⟩
      · exact absurd hchk (by simp [Timer.check, hle])

/-- C5 counterexample: the zero-length waits the claim declares legal break
strict monotonicity.  A timer over the spec `[0, 0]` started at clock 0 has
next pop time 0; a `check` at clock 0 pops (one action invocation) and
leaves the timer running, with the next pop time still exactly 0 — not
strictly increased. -/
theorem timer_strict_increase_cex :
    (∀ w ∈ [(0:ℚ), 0], 0 ≤ w) ∧
    ((freshTimer "z" [0, 0]).start 0).alarmTime = some 0 ∧
    ((freshTimer "z" [0, 0]).start 0).check 0 =
      .ok (((freshTimer "z" [0, 0]).start 0).setNextPopTime, 1) ∧
    (((freshTimer "z" [0, 0]).start 0).setNextPopTime).isRunning = true ∧
    (((freshTimer "z" [0, 0]).start 0).setNextPopTime).alarmTime =
      ((freshTimer "z" [0, 0]).start 0).alarmTime := by
  refine ⟨by norm_num, ?_, ?_, ?_, ?_⟩
  · norm_num [freshTimer, Timer.start, Timer.setNextPopTime]
  · norm_num [freshTimer, Timer.start, Timer.setNextPopTime, Timer.check]
  · norm_num [freshTimer, Timer.start, Timer.setNextPopTime,
      Timer.isRunning]
  · norm_num [freshTimer, Timer.start, Timer.setNextPopTime]

/-- C5 as amended: for a timer over a spec of non-negative waits, in every
state reachable through the API with `start()` only invoked while stopped:
`is_running` holds exactly when `start_time` is set; while running,
`next_pop_time ≥ start_time`; and a pop that leaves the timer running moves
`next_pop_time` forward by one wait — non-decreasing in general, and
strictly increasing when every wait of the spec is positive.  (Zero-length
waits, legal per the spec, give equality rather than strict increase, and a
`start()` on an already-running timer can put `next_pop_time` before the
new `start_time`; hence both qualifications.) -/
theorem timer_run_invariants (name : String) (spec : List ℚ) (u : Timer)
    (hw : ∀ w ∈ spec, 0 ≤ w)
    (hr : Timer.ReachWithStoppedStarts (freshTimer name spec) u) :
    (u.isRunning = true ↔ u.startTime ≠ none) ∧
    (∀ st a, u.startTime = some st → u.alarmTime = some a → st ≤ a) ∧
    (∀ now u', u.check now = .ok (u', 1) → u'.isRunning = true →
      ∀ a a', u.alarmTime = some a → u'.alarmTime = some a' →
        a ≤ a' ∧ ((∀ w ∈ spec, 0 < w) → a < a')) := by
  have hg := goodState_of_reach name spec u hw hr
  obtain ⟨h1, h2, h3, h4⟩ := hg
  refine ⟨?_, ?_, ?_⟩
  · simp [Timer.isRunning, Option.isSome_iff_ne_none]
  · intro st a hst ha
    obtain ⟨a2, l, ha2, -, hle⟩ := h4 st hst
    rw [ha] at ha2
    injection ha2 with ha2
    subst ha2
    exact hle
  · intro now u' hchk hrun a a' ha ha'
    obtain ⟨a0, w, ha0, ha0', hwmem⟩ := check_pop_alarm_advance spec u now
      u' ⟨h1, h2, h3, h4⟩ hchk hrun
    rw [ha] at ha0
    injection ha0 with ha0
    subst ha0
    rw [ha'] at ha0'
    injection ha0' with ha0'
    subst ha0'
    constructor
    · exact le_add_of_nonneg_right (hw w hwmem)
    · intro hpos
      exact lt_add_of_pos_right a (hpos w hwmem)

/-- Witness for C5: the timer over `[5, 5]` started from fresh at clock 0;
its start time 0 and next pop time 5 satisfy the invariant. -/
theorem timer_run_invariants_witness :
    (∀ w ∈ [(5:ℚ), 5], 0 ≤ w) ∧
    ((freshTimer "n" [5, 5]).start 0).startTime = some 0 ∧
    ((freshTimer "n" [5, 5]).start 0).alarmTime = some 5 ∧
    (0:ℚ) ≤ 5 := by
  have hw : ∀ w ∈ [(5:ℚ), 5], 0 ≤ w := by norm_num
  have hst : ((freshTimer "n" [5, 5]).start 0).startTime = some 0 := by
    simp [freshTimer, Timer.start, Timer.setNextPopTime]
  have ha : ((freshTimer "n" [5, 5]).start 0).alarmTime = some 5 := by
    norm_num [freshTimer, Timer.start, Timer.setNextPopTime]
  exact ⟨hw, hst, ha,
    (timer_run_invariants "n" [5, 5] ((freshTimer "n" [5, 5]).start 0) hw
      (.start _ 0 .refl rfl)).2.1 0 5 hst ha⟩

/-- From the twelfth send on, every cumulative send time is at or past the
give-up deadline, so no send beyond the eleventh ever happens. -/
theorem sendTime_ge_giveup (n : ℕ) :
    DefaultGiveupTimeMS ≤ sendTime (11 + n) := by
  induction n with
  | zero => decide
  | succ n ih =>
    rw [Nat.add_succ]
    exact le_trans ih (Nat.le_add_right _ _)

/-- C3 counterexample: the claim's total of 6 sends with no 7th is wrong —
retransmission continues at the capped 4000 ms interval until the 32 s
give-up, so a 7th send happens at t = 15.5 s and in all 11 sends occur
before termination (this is also what the repository's own
`TestNonInviteTransaction.test_basic` asserts: 11 sends by t = 31.9 s). -/
theorem noninvite_six_sends_cex :
    sendTimes.length = 11 ∧ sendTimes.length ≠ 6 ∧
    sendTime 6 = 15500 ∧ sendTime 6 ∈ sendTimes := by
  refine ⟨by decide, by decide, by decide, by decide⟩

/-- C3 as amended: with no response, the non-INVITE client transaction
sends at cumulative times {0, 0.5, 1.5, 3.5, 7.5, 11.5, 15.5, 19.5, 23.5,
27.5, 31.5} seconds (11 sends in all, following the
500→1000→2000→4000→… ms capped doubling backoff); every further cumulative
send time is at or past the 32 s give-up, at which point the transaction is
terminated and a timeout has been signalled, so no 12th send occurs. -/
theorem noninvite_retransmission_schedule :
    sendTimes = [0, 500, 1500, 3500, 7500, 11500, 15500, 19500, 23500,
      27500, 31500] ∧
    sendTimes.length = 11 ∧
    (∀ n : ℕ, DefaultGiveupTimeMS ≤ sendTime (11 + n)) ∧
    nonInviteClientStateAt 31999 = .trying ∧
    nonInviteClientStateAt 32000 = .terminated ∧
    timeoutSignaledAt 31999 = false ∧
    timeoutSignaledAt 32000 = true :=
  ⟨by decide, by decide, sendTime_ge_giveup, by decide, by decide,
   by decide, by decide⟩

end SipParty

